import Mathlib

/-!
Verification of the skill-matching core of `file-to-text-converter`
(`src/models/skill_ontology.py`, `src/services/skill_matcher.py`,
`src/services/career_recommender.py`, `src/services/learning_path_generator.py`).

Modelling conventions, used uniformly below:

* Python `float` is modelled as `ℚ`.  Every numeric fact proved here is about
  quantities (sums/quotients of catalog constants such as 0.9, 0.7, 0.6)
  whose claim-relevant comparisons agree between IEEE doubles and exact
  rationals.
* A Python `dict` (insertion ordered) is an association list
  `List (String × α)`; assignment `d[k] = v` replaces the value in place when
  the key exists and appends otherwise, exactly as CPython does.
* A Python `set` of strings is a duplicate-free `List String`; its iteration
  order is unspecified in CPython, and no theorem below depends on the
  enumeration order of a set.
* Code that can raise (`d[k]` on a missing key, `next()` on an empty
  generator) is modelled in the `Option` monad: `none` is an escaped
  exception, `some` a normal return.
* `str.lower` / `str.strip` are modelled on ASCII data (`Char.toLower`,
  whitespace trimming); all catalog strings involved in the claims are ASCII.
-/

/-- `d[k] = v` on a Python dict: replace in place if present, else append. -/
def pyDictSet {α : Type} : List (String × α) → String → α → List (String × α)
  | [], k, v => [(k, v)]
  | (k', v') :: rest, k, v =>
    if k' = k then (k, v) :: rest else (k', v') :: pyDictSet rest k v

/-- `d.get(k)` / `k in d` on a Python dict. -/
def pyLookup {α : Type} : List (String × α) → String → Option α
  | [], _ => none
  | (k', v') :: rest, k => if k' = k then some v' else pyLookup rest k

/-- The values view of a Python dict, in insertion order. -/
def pyValues {α : Type} (d : List (String × α)) : List α := d.map (·.2)

/-- `set(xs)` for a list of strings: the distinct elements (CPython's
enumeration order of a set is unspecified; only membership and cardinality
of this list are ever used). -/
def pySet (xs : List String) : List String := xs.dedup

/-! ### Stable descending sort

`sorted(xs, key=k, reverse=True)` and `xs.sort(key=k, reverse=True)`:
stable, descending in the key.  Modelled as an insertion sort that inserts
each element (taken in original order) after every already-placed element
with a key at least as large. -/

def insertDescBy {α : Type} (key : α → ℚ) (x : α) : List α → List α
  | [] => [x]
  | y :: ys => if key x ≤ key y then y :: insertDescBy key x ys else x :: y :: ys

def pySortDescBy {α : Type} (key : α → ℚ) (l : List α) : List α :=
  l.foldl (fun acc x => insertDescBy key x acc) []

/-! ### Data model (`src/models/skill_ontology.py`) -/

inductive SkillType where
  | technical | soft | cognitive | physical
  deriving DecidableEq, Repr

inductive ProficiencyLevel where
  | beginner | intermediate | advanced | expert
  deriving DecidableEq, Repr

/-- Core skill entity (`Skill` dataclass); `__post_init__` replaces a `None`
synonym/related list with `[]`, so both fields are plain lists here. -/
structure Skill where
  id : String
  name : String
  description : String
  skill_type : SkillType
  onet_code : Option String := none
  esco_code : Option String := none
  synonyms : List String := []
  related_skills : List String := []
  deriving DecidableEq, Repr

structure SkillRequirement where
  skill_id : String
  importance : ℚ
  required_level : ProficiencyLevel
  is_mandatory : Bool := true
  deriving DecidableEq, Repr

structure Job where
  id : String
  title : String
  description : String
  onet_code : Option String := none
  esco_code : Option String := none
  required_skills : List SkillRequirement := []
  growth_projection : Option ℚ := none
  median_salary : Option ℚ := none
  deriving DecidableEq, Repr

structure UserSkill where
  skill_id : String
  proficiency_level : ProficiencyLevel
  years_experience : Option Int := none
  validated : Bool := false
  deriving DecidableEq, Repr

structure SkillGap where
  skill_id : String
  skill_name : String
  current_level : Option ProficiencyLevel
  required_level : ProficiencyLevel
  importance : ℚ
  gap_score : ℚ
  deriving DecidableEq, Repr

structure SkillOntology where
  skills : List (String × Skill) := []
  jobs : List (String × Job) := []
  skill_relationships : List (String × List String) := []
  job_skill_matrix : List (String × List SkillRequirement) := []
  deriving DecidableEq, Repr

/-- `SkillOntology.add_skill`: `self.skills[skill.id] = skill;
self.skill_relationships[skill.id] = set(skill.related_skills)`. -/
def add_skill (ont : SkillOntology) (skill : Skill) : SkillOntology :=
  { ont with
    skills := pyDictSet ont.skills skill.id skill
    skill_relationships := pyDictSet ont.skill_relationships skill.id
      (pySet skill.related_skills) }

/-- `SkillOntology.add_job`. -/
def add_job (ont : SkillOntology) (job : Job) : SkillOntology :=
  { ont with
    jobs := pyDictSet ont.jobs job.id job
    job_skill_matrix := pyDictSet ont.job_skill_matrix job.id job.required_skills }

/-- `SkillOntology.get_related_skills`: return `[]` for an id with no
adjacency entry, else the registered skills among the adjacency set
(`if sid in self.skills` guards each subscript). -/
def get_related_skills (ont : SkillOntology) (skill_id : String) : List Skill :=
  match pyLookup ont.skill_relationships skill_id with
  | none => []
  | some related_ids => related_ids.filterMap (fun sid => pyLookup ont.skills sid)

/-- `SkillOntology.calculate_skill_similarity`.  Note the single-direction
adjacency test: only `skill1_id in self.skill_relationships.get(skill2_id, set())`
is checked. -/
def calculate_skill_similarity (ont : SkillOntology) (skill1_id skill2_id : String) : ℚ :=
  if skill1_id = skill2_id then 1
  else if skill1_id ∈ ((pyLookup ont.skill_relationships skill2_id).getD []) then 4/5
  else
    let related1 := (pyLookup ont.skill_relationships skill1_id).getD []
    let related2 := (pyLookup ont.skill_relationships skill2_id).getD []
    if related1 ≠ [] ∧ related2 ≠ [] then
      let inter := related1.filter (· ∈ related2)
      let uni := related1 ++ related2.filter (· ∉ related1)
      if uni ≠ [] then (3/5) * inter.length / uni.length else 0
    else 0

/-- The integer proficiency scale `level_values` used throughout the source. -/
def level_values : ProficiencyLevel → Nat
  | .beginner => 1
  | .intermediate => 2
  | .advanced => 3
  | .expert => 4

/-- `{us.skill_id: us for us in user_skills}` looked up at `k`: the dict
comprehension keeps the last entry for a repeated key. -/
def userSkillDict (user_skills : List UserSkill) (k : String) : Option UserSkill :=
  user_skills.reverse.find? (fun us => us.skill_id = k)

/-- The body of the `for req in job.required_skills` loop of
`calculate_job_match_score`: the credit a single requirement contributes to
`match_score` (0 when the user lacks the skill, else
`importance * proficiency_match`). -/
def requirement_credit (user_skills : List UserSkill) (req : SkillRequirement) : ℚ :=
  match userSkillDict user_skills req.skill_id with
  | none => 0
  | some user_skill =>
    let user_level := level_values user_skill.proficiency_level
    let required_level := level_values req.required_level
    let proficiency_match : ℚ :=
      if required_level ≤ user_level then 1
      else (user_level : ℚ) / (required_level : ℚ)
    req.importance * proficiency_match

/-- `SkillOntology.calculate_job_match_score`. -/
def calculate_job_match_score (ont : SkillOntology) (user_skills : List UserSkill)
    (job_id : String) : ℚ :=
  match pyLookup ont.jobs job_id with
  | none => 0
  | some job =>
    if job.required_skills = [] then 0
    else
      let total_importance := (job.required_skills.map (·.importance)).sum
      if total_importance = 0 then 0
      else
        let match_score := (job.required_skills.map (requirement_credit user_skills)).sum
        match_score / total_importance

/-- The body of the `for req in job.required_skills` loop of
`identify_skill_gaps`: the gap (if any) one requirement contributes.  The
display name for a requirement whose skill id is not registered comes from
`self.skills.get(req.skill_id, Skill(req.skill_id, "Unknown", "", SkillType.TECHNICAL)).name`,
i.e. it is the literal string `"Unknown"`. -/
def gap_for_requirement (ont : SkillOntology) (user_skills : List UserSkill)
    (req : SkillRequirement) : Option SkillGap :=
  let skill_name := match pyLookup ont.skills req.skill_id with
    | some s => s.name
    | none => "Unknown"
  match userSkillDict user_skills req.skill_id with
  | some user_skill =>
    let user_level := level_values user_skill.proficiency_level
    let required_level := level_values req.required_level
    if user_level < required_level then
      some { skill_id := req.skill_id, skill_name := skill_name,
             current_level := some user_skill.proficiency_level,
             required_level := req.required_level,
             importance := req.importance,
             gap_score := ((required_level : ℚ) - (user_level : ℚ)) / (required_level : ℚ) }
    else none
  | none =>
    some { skill_id := req.skill_id, skill_name := skill_name,
           current_level := none,
           required_level := req.required_level,
           importance := req.importance,
           gap_score := 1 }

/-- `SkillOntology.identify_skill_gaps`. -/
def identify_skill_gaps (ont : SkillOntology) (user_skills : List UserSkill)
    (job_id : String) : List SkillGap :=
  match pyLookup ont.jobs job_id with
  | none => []
  | some job =>
    let gaps := job.required_skills.filterMap (gap_for_requirement ont user_skills)
    pySortDescBy (fun g => g.importance * g.gap_score) gaps

/-! ### Skill matcher (`src/services/skill_matcher.py`) -/

/-- `str.lower()` (ASCII model; written over the character list so that it
reduces by structural recursion). -/
def pyLower (s : String) : String := String.mk (s.data.map Char.toLower)

/-- `str.strip()` (ASCII-whitespace model): drop whitespace from both
ends. -/
def pyStrip (s : String) : String :=
  String.mk (((s.data.dropWhile Char.isWhitespace).reverse.dropWhile
    Char.isWhitespace).reverse)

/-- Length of the longest common prefix of two character lists. -/
def commonPrefixLen : List Char → List Char → Nat
  | a :: as, b :: bs => if a = b then commonPrefixLen as bs + 1 else 0
  | _, _ => 0

/-- `difflib.SequenceMatcher.find_longest_match` (no junk, which is exact for
the short strings compared here: autojunk only applies from length 200): the
longest block `a[i:i+k] = b[j:j+k]`, ties broken by smallest `i`, then
smallest `j`. -/
def bestBlock (a b : List Char) : Nat × Nat × Nat :=
  (List.range a.length).foldl (fun best i =>
    (List.range b.length).foldl (fun best j =>
      let k := commonPrefixLen (a.drop i) (b.drop j)
      if best.2.2 < k then (i, j, k) else best) best) (0, 0, 0)

/-- Total size of the matching blocks of `difflib.SequenceMatcher`:
recursively split around the longest match.  Fuel-based recursion; each
recursive call is on a strictly shorter first list (the block size is at
least 1), so `a.length + 1` units of fuel always suffice and the fuel-out
branch is unreachable. -/
def matchTotalF : Nat → List Char → List Char → Nat
  | 0, _, _ => 0
  | fuel + 1, a, b =>
    let (i, j, k) := bestBlock a b
    if k = 0 then 0
    else matchTotalF fuel (a.take i) (b.take j) + k +
         matchTotalF fuel (a.drop (i + k)) (b.drop (j + k))

/-- `difflib.SequenceMatcher(None, a, b).ratio()`: `2*M / T` where `M` is the
total matched size and `T` the total length (`1.0` when both are empty). -/
def ratioOf (a b : List Char) : ℚ :=
  let t := a.length + b.length
  if t = 0 then 1 else 2 * (matchTotalF (a.length + 1) a b : ℚ) / (t : ℚ)

/-- Python's substring test `a in b` on strings (contiguous substring). -/
def isSubstring (a b : List Char) : Bool :=
  (List.range (b.length + 1)).any (fun i => a.isPrefixOf (b.drop i))

structure SkillMatch where
  user_term : String
  matched_skill : Skill
  match_score : ℚ
  match_type : String
  confidence : ℚ
  deriving DecidableEq, Repr

structure JobMatch where
  job : Job
  match_score : ℚ
  matched_skills : List SkillMatch
  missing_skills : List String
  transferable_skills : List String
  deriving DecidableEq, Repr

/-- `SkillMatcher` holds the ontology and the reverse synonym index built by
`_build_synonym_index` in `__init__`. -/
structure SkillMatcher where
  ontology : SkillOntology
  synonym_index : List (String × List String)
  deriving DecidableEq, Repr

/-- `SkillMatcher._build_synonym_index`: append each skill id under the
lowercased form of each of its synonyms. -/
def build_synonym_index (skills : List (String × Skill)) : List (String × List String) :=
  skills.foldl (fun idx p =>
    p.2.synonyms.foldl (fun idx syn =>
      let s := pyLower syn
      match pyLookup idx s with
      | none => pyDictSet idx s [p.1]
      | some ids => pyDictSet idx s (ids ++ [p.1])) idx) []

/-- `SkillMatcher.__init__`. -/
def mkSkillMatcher (ont : SkillOntology) : SkillMatcher :=
  ⟨ont, build_synonym_index ont.skills⟩

/-- `SkillMatcher._exact_match`: first skill (in catalog insertion order)
whose lowercased name equals the lowercased, stripped input. -/
def exact_match (m : SkillMatcher) (user_term : String) : Option SkillMatch :=
  let user_term_lower := pyStrip (pyLower user_term)
  ((pyValues m.ontology.skills).find? (fun skill => pyLower skill.name = user_term_lower)).map
    (fun skill =>
      { user_term := user_term, matched_skill := skill, match_score := 1,
        match_type := "exact", confidence := 1 })

/-- `SkillMatcher._synonym_match`: reverse-index lookup; the first indexed
skill id wins.  The subscript `self.ontology.skills[skill_ids[0]]` cannot
fail for an index built from the same ontology (ids are never removed), so
it is modelled as a map over the lookup. -/
def synonym_match (m : SkillMatcher) (user_term : String) : Option SkillMatch :=
  let user_term_lower := pyStrip (pyLower user_term)
  match pyLookup m.synonym_index user_term_lower with
  | none => none
  | some skill_ids =>
    match skill_ids with
    | [] => none
    | id0 :: _ =>
      (pyLookup m.ontology.skills id0).map (fun skill =>
        { user_term := user_term, matched_skill := skill, match_score := 9/10,
          match_type := "synonym", confidence := 9/10 })

/-- `SkillMatcher._fuzzy_match`: best edit-similarity over all skills, with
substring boosts; kept only above the 0.4 threshold (strict `>`, first best
wins on ties). -/
def fuzzy_best (m : SkillMatcher) (user_term_lower : String) : Option Skill × ℚ :=
  (pyValues m.ontology.skills).foldl (fun (best : Option Skill × ℚ) skill =>
    let name_lower := pyLower skill.name
    let base_score := ratioOf user_term_lower.toList name_lower.toList
    let name_score :=
      if isSubstring user_term_lower.toList name_lower.toList then max base_score (4/5)
      else if isSubstring name_lower.toList user_term_lower.toList then max base_score (7/10)
      else base_score
    if best.2 < name_score ∧ 2/5 < name_score then (some skill, name_score) else best)
    (none, 0)

def fuzzy_match (m : SkillMatcher) (user_term : String) : Option SkillMatch :=
  let user_term_lower := pyStrip (pyLower user_term)
  match fuzzy_best m user_term_lower with
  | (some skill, best_score) =>
    some { user_term := user_term, matched_skill := skill, match_score := best_score,
           match_type := "fuzzy", confidence := best_score * (4/5) }
  | (none, _) => none

/-- The stop-word set of `SkillMatcher._extract_keywords`. -/
def stop_words : List String :=
  ["the", "a", "an", "and", "or", "but", "in", "on", "at", "to", "for",
   "of", "with", "by", "from", "up", "about", "into", "through", "during",
   "how", "when", "where", "why", "what", "which", "who", "whom", "this",
   "that", "these", "those", "am", "is", "are", "was", "were", "been",
   "be", "have", "has", "had", "do", "does", "did", "will", "would",
   "should", "could", "may", "might", "must", "can", "good", "well", "very"]

/-- A `\w` word character (ASCII model). -/
def isWordChar (c : Char) : Bool := c.isAlphanum || c = '_'

/-- Maximal runs of word characters: `re.findall(r'\b\w+\b', text)`. -/
def wordRunsAux : List Char → List Char → List String
  | [], cur => if cur = [] then [] else [String.mk cur.reverse]
  | c :: cs, cur =>
    if isWordChar c then wordRunsAux cs (c :: cur)
    else if cur = [] then wordRunsAux cs []
    else String.mk cur.reverse :: wordRunsAux cs []

/-- `SkillMatcher._extract_keywords`. -/
def extract_keywords (text : String) : List String :=
  let words := wordRunsAux (pyLower text).toList []
  words.filter (fun w => w ∉ stop_words ∧ 2 < w.length)

/-- `SkillMatcher._semantic_match`: keyword hit count over name+description,
best score kept if above the 0.3 threshold. -/
def semantic_best (m : SkillMatcher) (keywords : List String) : Option Skill × ℚ :=
  (pyValues m.ontology.skills).foldl (fun (best : Option Skill × ℚ) skill =>
    let skill_text := pyLower (skill.name ++ " " ++ skill.description)
    let hits := (keywords.filter (fun kw => isSubstring kw.toList skill_text.toList)).length
    if 0 < hits then
      let score := (hits : ℚ) / (keywords.length : ℚ)
      if best.2 < score then (some skill, score) else best
    else best) (none, 0)

def semantic_match (m : SkillMatcher) (user_term : String) : Option SkillMatch :=
  let user_term_lower := pyStrip (pyLower user_term)
  let keywords := extract_keywords user_term_lower
  match semantic_best m keywords with
  | (some skill, best_score) =>
    if 3/10 < best_score then
      some { user_term := user_term, matched_skill := skill, match_score := best_score,
             match_type := "semantic", confidence := best_score * (3/5) }
    else none
  | (none, _) => none

/-- `SkillMatcher.match_user_skills`: per input string the four strategies in
order, first hit wins; inputs with no match are dropped. -/
def match_user_skills (m : SkillMatcher) (user_descriptions : List String) : List SkillMatch :=
  user_descriptions.filterMap (fun description =>
    (exact_match m description).orElse (fun _ =>
      (synonym_match m description).orElse (fun _ =>
        (fuzzy_match m description).orElse (fun _ =>
          semantic_match m description))))

/-- `SkillMatcher._find_transferable_skill`: direct adjacency first, then the
similarity threshold `> 0.6`. -/
def find_transferable_skill (m : SkillMatcher) (required_skill_id : String)
    (user_skill_ids : List String) : Option String :=
  let direct := match pyLookup m.ontology.skill_relationships required_skill_id with
    | some related_skills => user_skill_ids.find? (fun u => u ∈ related_skills)
    | none => none
  match direct with
  | some u => some u
  | none =>
    user_skill_ids.find? (fun u =>
      3/5 < calculate_skill_similarity m.ontology required_skill_id u)

/-- The per-requirement state of the inner loop of `find_matching_jobs`:
`(matched_skills, missing_skills, transferable_skills, matched_importance)`. -/
abbrev ReqState : Type := List SkillMatch × List String × List String × ℚ

/-- One iteration of the `for req in job.required_skills` loop of
`SkillMatcher.find_matching_jobs`. -/
def reqStep (m : SkillMatcher) (skill_matches : List SkillMatch)
    (user_skill_ids : List String) (st : ReqState) (req : SkillRequirement) :
    Option ReqState :=
  let (matched, missing, transferable, matched_importance) := st
  if req.skill_id ∈ user_skill_ids then
    match skill_matches.find? (fun sm => sm.matched_skill.id = req.skill_id) with
    | some skill_match =>
      some (matched ++ [skill_match], missing, transferable,
            matched_importance + req.importance)
    | none => none
  else
    match find_transferable_skill m req.skill_id user_skill_ids with
    | some _ =>
      match pyLookup m.ontology.skills req.skill_id with
      | some sk =>
        some (matched, missing, transferable ++ [sk.name],
              matched_importance + req.importance * (7/10))
      | none => none
    | none =>
      match pyLookup m.ontology.skills req.skill_id with
      | some sk => some (matched, missing ++ [sk.name], transferable, matched_importance)
      | none => none

/-- One iteration of the `for job in self.ontology.jobs.values()` loop of
`SkillMatcher.find_matching_jobs`. -/
def processJob (m : SkillMatcher) (skill_matches : List SkillMatch)
    (user_skill_ids : List String) (min_match_score : ℚ)
    (job_matches : List JobMatch) (job : Job) : Option (List JobMatch) :=
  if job.required_skills = [] then some job_matches
  else
    match job.required_skills.foldlM (reqStep m skill_matches user_skill_ids)
        (([], [], [], 0) : ReqState) with
    | none => none
    | some (matched, missing, transferable, matched_importance) =>
      let total_importance := (job.required_skills.map (·.importance)).sum
      if 0 < total_importance then
        let match_score := matched_importance / total_importance
        if min_match_score ≤ match_score then
          some (job_matches ++
            [{ job := job, match_score := match_score, matched_skills := matched,
               missing_skills := missing, transferable_skills := transferable }])
        else some job_matches
      else some job_matches

/-- `SkillMatcher.find_matching_jobs`.  The two subscripts
`self.ontology.skills[req.skill_id].name` on the transferable and missing
branches raise `KeyError` for an unregistered skill id, and
`next(m for m in skill_matches ...)` raises `StopIteration` when no match
has the required id; both escapes are the `none` result. -/
def find_matching_jobs (m : SkillMatcher) (skill_matches : List SkillMatch)
    (min_match_score : ℚ) : Option (List JobMatch) :=
  let user_skill_ids := pySet (skill_matches.map (·.matched_skill.id))
  match (pyValues m.ontology.jobs).foldlM
      (processJob m skill_matches user_skill_ids min_match_score) [] with
  | none => none
  | some job_matches => some (pySortDescBy (·.match_score) job_matches)

/-! ### Recommendation scorer (`src/services/career_recommender.py`) -/

/-- `JobProjection` (`src/integrations/bls_integration.py`). -/
structure JobProjection where
  occupation_code : String
  occupation_title : String
  employment_2022 : Option Int
  employment_2032 : Option Int
  change_numeric : Option Int
  change_percent : Option ℚ
  median_annual_wage : Option Int
  typical_education : Option String
  work_experience : Option String
  deriving DecidableEq, Repr

/-- `MarketValidation`; `last_updated : datetime` is modelled as an integer
timestamp (it is never read by the scoring code). -/
structure MarketValidation where
  query : String
  response : String
  sources : List String
  confidence : ℚ
  is_current : Bool
  last_updated : Int
  deriving DecidableEq, Repr

/-- `CareerRecommendation`.  The free-text `explanation` field
(`_generate_explanation` interpolates float reprs into English sentences) is
the one field not carried by the model; no claim concerns it. -/
structure CareerRecommendation where
  job : Job
  match_score : ℚ
  skill_match : JobMatch
  market_data : Option JobProjection
  market_validation : Option MarketValidation
  confidence : ℚ
  recommended_actions : List String
  salary_range : Option (Int × Int)
  growth_outlook : String
  deriving DecidableEq, Repr

/-- The market-confidence computation of `_create_recommendation`
(lines 254-267).  `if bls_projection.change_percent and ... > 0` is
`0 < g` for a present `g` (both `None` and `0.0` are falsy), and the
validation nudge fires on the strict comparison `confidence > 0.7`. -/
def market_confidence_of (bls_projection : Option JobProjection)
    (market_validation : Option MarketValidation) : ℚ :=
  let m0 : ℚ := 1/2
  let m1 := match bls_projection with
    | none => m0
    | some p =>
      match p.change_percent with
      | none => m0
      | some g =>
        if 0 < g then min (9/10) (1/2 + g / 50)
        else if g < 0 then max (1/10) (1/2 + g / 100)
        else m0
  match market_validation with
  | none => m1
  | some v =>
    if 7/10 < v.confidence ∧ v.is_current then min (19/20) (m1 + 1/5)
    else if v.confidence < 2/5 then max (1/5) (m1 - 1/5)
    else m1

/-- `int()` on a rational: truncation toward zero. -/
def ratTrunc (q : ℚ) : Int := q.num.tdiv q.den

/-- `_generate_actions`. -/
def generate_actions (job_match : JobMatch) (bls_projection : Option JobProjection) :
    List String :=
  let actions := (job_match.missing_skills.take 3).map
    (fun skill => "Learn " ++ skill ++ " through online courses or certification")
  let actions := if job_match.transferable_skills ≠ [] then
      actions ++ ["Highlight transferable skills in your resume and interviews"]
    else actions
  let actions := match bls_projection with
    | some p =>
      match p.typical_education with
      | some edu =>
        if edu ≠ "" then actions ++ ["Consider " ++ pyLower edu ++ " if not already completed"]
        else actions
      | none => actions
    | none => actions
  (actions ++ ["Build a portfolio showcasing relevant projects",
               "Network with professionals in this field",
               "Apply to entry-level positions to gain experience"]).take 5

/-- `_determine_salary_range`: `[int(0.75*median), int(1.25*median)]` when a
(nonzero) median wage is present. -/
def determine_salary_range (bls_projection : Option JobProjection)
    (_market_validation : Option MarketValidation) : Option (Int × Int) :=
  match bls_projection with
  | some p =>
    match p.median_annual_wage with
    | some w =>
      if w ≠ 0 then some (ratTrunc ((w : ℚ) * (3/4)), ratTrunc ((w : ℚ) * (5/4)))
      else none
    | none => none
  | none => none

/-- `_determine_growth_outlook` (a zero growth percent is falsy and takes the
default branch). -/
def determine_growth_outlook (bls_projection : Option JobProjection)
    (_market_validation : Option MarketValidation) : String :=
  match bls_projection with
  | some p =>
    match p.change_percent with
    | some g =>
      if g ≠ 0 then
        if 15 ≤ g then "excellent"
        else if 7 ≤ g then "good"
        else if 0 ≤ g then "fair"
        else "poor"
      else "fair"
    | none => "fair"
  | none => "fair"

/-- `CareerRecommendationEngine._create_recommendation`. -/
def create_recommendation (job : Job) (job_match : JobMatch)
    (bls_projection : Option JobProjection)
    (market_validation : Option MarketValidation) : CareerRecommendation :=
  let base_confidence := job_match.match_score
  let market_confidence := market_confidence_of bls_projection market_validation
  let overall_confidence := base_confidence * (3/5) + market_confidence * (2/5)
  { job := job, match_score := job_match.match_score, skill_match := job_match,
    market_data := bls_projection, market_validation := market_validation,
    confidence := overall_confidence,
    recommended_actions := generate_actions job_match bls_projection,
    salary_range := determine_salary_range bls_projection market_validation,
    growth_outlook := determine_growth_outlook bls_projection market_validation }

/-! ### Learning-path sequencing (`src/services/learning_path_generator.py`) -/

structure LearningResource where
  title : String
  provider : String
  url : String
  resource_type : String
  difficulty : String
  estimated_hours : Int
  cost : String
  rating : Option ℚ := none
  prerequisites : List String := []
  deriving DecidableEq, Repr

structure LearningMilestone where
  skill_name : String
  target_level : ProficiencyLevel
  resources : List LearningResource
  estimated_weeks : Int
  prerequisites : List String
  validation_method : String
  deriving DecidableEq, Repr

/-- One pass of the `while remaining` loop of `_optimize_learning_sequence`:
iterate over the snapshot `remaining[:]`, emitting every milestone whose
prerequisites are all completed, updating `completed_skills` as we go, and
removing each emitted milestone from `remaining` (`list.remove`: first
occurrence by value).  Returns `(optimized, completed, remaining, added_any)`. -/
def seqPass : List LearningMilestone → List LearningMilestone → List String →
    List LearningMilestone → Bool →
    List LearningMilestone × List String × List LearningMilestone × Bool
  | [], optimized, completed, remaining, added => (optimized, completed, remaining, added)
  | mile :: rest, optimized, completed, remaining, added =>
    if mile.prerequisites.all (fun p => completed.contains p) then
      seqPass rest (optimized ++ [mile]) (completed ++ [mile.skill_name])
        (remaining.erase mile) true
    else
      seqPass rest optimized completed remaining added

/-- The `while remaining:` loop.  Fuel-based: a pass with `added_any = true`
always shortens `remaining` (its first successful iteration erases an
element of the still-untouched list), so `remaining.length + 1` units of fuel
are never exhausted; the fuel-out branch coincides with the fixed-point
fallback (`optimized.extend(remaining); break`). -/
def seqLoop : Nat → List String → List LearningMilestone → List LearningMilestone →
    List LearningMilestone
  | _, _, [], optimized => optimized
  | 0, _, remaining, optimized => optimized ++ remaining
  | fuel + 1, completed, remaining, optimized =>
    match seqPass remaining optimized completed remaining false with
    | (optimized2, completed2, remaining2, added) =>
      if added then seqLoop fuel completed2 remaining2 optimized2
      else optimized2 ++ remaining2

/-- `LearningPathGenerator._optimize_learning_sequence`. -/
def optimize_learning_sequence (milestones : List LearningMilestone) :
    List LearningMilestone :=
  let optimized := milestones.filter (fun mile => mile.prerequisites = [])
  let completed := optimized.map (·.skill_name)
  let remaining := milestones.filter (fun mile => mile.prerequisites ≠ [])
  seqLoop (remaining.length + 1) completed remaining optimized

/-! ### Derived accessors and concrete catalogs used by the claims -/

/-- The adjacency set recorded for `x`: `self.skill_relationships.get(x, set())`. -/
def adjacencyOf (ont : SkillOntology) (x : String) : List String :=
  (pyLookup ont.skill_relationships x).getD []

/-- Catalog for claim C4: `a` lists `b` as related, `b` lists nothing. -/
def c4Ont : SkillOntology := { skill_relationships := [("a", ["b"])] }

/-- Registered target skill for claim C9. -/
def c9SkillB : Skill :=
  { id := "b", name := "B", description := "", skill_type := .technical }

/-- Catalog for claim C9: the adjacency set of `a` holds a registered id and
a dangling one. -/
def c9Ont : SkillOntology :=
  { skills := [("b", c9SkillB)], skill_relationships := [("a", ["b", "ghost"])] }

def c10OldSkill : Skill :=
  { id := "python", name := "Old Python", description := "",
    skill_type := .technical, related_skills := ["x"] }

def c10OtherSkill : Skill :=
  { id := "other", name := "Other", description := "", skill_type := .soft }

def c10NewSkill : Skill :=
  { id := "python", name := "Python", description := "",
    skill_type := .technical, synonyms := ["py"],
    related_skills := ["sql", "sql", "git"] }

/-- Catalog for claim C10 with existing entries under both ids. -/
def c10Ont : SkillOntology :=
  { skills := [("python", c10OldSkill), ("other", c10OtherSkill)],
    skill_relationships := [("python", ["x"]), ("other", ["y"])] }

/-- Requirements and catalog exercising claim C3. -/
def c3Req1 : SkillRequirement :=
  { skill_id := "a", importance := 1/2, required_level := .intermediate }

def c3Req2 : SkillRequirement :=
  { skill_id := "b", importance := 1/4, required_level := .beginner }

def c3Job : Job :=
  { id := "j3", title := "J3", description := "", required_skills := [c3Req1, c3Req2] }

def c3Ont : SkillOntology := add_job {} c3Job

def c3User : List UserSkill :=
  [{ skill_id := "a", proficiency_level := .advanced },
   { skill_id := "b", proficiency_level := .beginner }]

/-- Requirements, catalog, and user set exercising claim C6. -/
def c6ReqA : SkillRequirement :=
  { skill_id := "a", importance := 9/10, required_level := .advanced }

def c6ReqB : SkillRequirement :=
  { skill_id := "b", importance := 1/2, required_level := .advanced }

def c6ReqC : SkillRequirement :=
  { skill_id := "c", importance := 3/10, required_level := .beginner }

def c6Job : Job :=
  { id := "j6", title := "J6", description := "",
    required_skills := [c6ReqA, c6ReqB, c6ReqC] }

def c6Ont : SkillOntology := add_job {} c6Job

def c6User : List UserSkill :=
  [{ skill_id := "b", proficiency_level := .beginner },
   { skill_id := "c", proficiency_level := .expert }]

/-- The overall-confidence formula exactly as claim C7 words it: market
confidence starts at 0.5, becomes `min(0.9, 0.5 + g/50)` for positive
supplied growth and `max(0.1, 0.5 + g/100)` for negative, is raised by 0.2
(cap 0.95) when a validation signal has confidence `≥ 0.7` (the claim's
threshold) and a current-data flag, lowered by 0.2 (floor 0.2) below 0.4;
overall = `0.6 × match_score + 0.4 × market_confidence`. -/
def claimC7_confidence (match_score : ℚ) (growth : Option ℚ)
    (validation : Option (ℚ × Bool)) : ℚ :=
  let m1 := match growth with
    | none => 1/2
    | some g =>
      if 0 < g then min (9/10) (1/2 + g/50)
      else if g < 0 then max (1/10) (1/2 + g/100)
      else 1/2
  let m2 := match validation with
    | none => m1
    | some vc =>
      if 7/10 ≤ vc.1 ∧ vc.2 then min (19/20) (m1 + 1/5)
      else if vc.1 < 2/5 then max (1/5) (m1 - 1/5)
      else m1
  (3/5) * match_score + (2/5) * m2

/-- Claim C7 amended at exactly one point: the validation raise fires on the
code's strict `confidence > 0.7`, not `≥ 0.7`. -/
def amendedC7_confidence (match_score : ℚ) (growth : Option ℚ)
    (validation : Option (ℚ × Bool)) : ℚ :=
  let m1 := match growth with
    | none => 1/2
    | some g =>
      if 0 < g then min (9/10) (1/2 + g/50)
      else if g < 0 then max (1/10) (1/2 + g/100)
      else 1/2
  let m2 := match validation with
    | none => m1
    | some vc =>
      if 7/10 < vc.1 ∧ vc.2 then min (19/20) (m1 + 1/5)
      else if vc.1 < 2/5 then max (1/5) (m1 - 1/5)
      else m1
  (3/5) * match_score + (2/5) * m2

def c7Job : Job := { id := "x", title := "X", description := "" }

def c7JobMatch : JobMatch :=
  { job := c7Job, match_score := 1/2, matched_skills := [], missing_skills := [],
    transferable_skills := [] }

/-- Validation signal sitting exactly on the claimed 0.7 threshold. -/
def c7Validation : MarketValidation :=
  { query := "", response := "", sources := [], confidence := 7/10,
    is_current := true, last_updated := 0 }

def c5GitSkill : Skill :=
  { id := "git", name := "Git", description := "Version control",
    skill_type := .technical }

/-- A different skill registering the input as a synonym. -/
def c5OtherSkill : Skill :=
  { id := "other", name := "Other Tool", description := "",
    skill_type := .technical, synonyms := ["Git"] }

/-- Catalog for claim C5: "Git" is both an exact skill name and a synonym of
a different skill. -/
def c5Ont : SkillOntology := add_skill (add_skill {} c5GitSkill) c5OtherSkill

/-- Claim C2's skill "python" with synonym "Python".  The display name is
distinct from the synonym (the claim pins only the id and the synonym), so
the cascade resolves the input "Python" at the synonym stage, exactly as the
claim asserts. -/
def pythonSkill : Skill :=
  { id := "python", name := "Python Programming",
    description := "General-purpose programming language",
    skill_type := .technical, synonyms := ["Python"] }

/-- Claim C2's skill "sql" with display name "SQL". -/
def sqlSkill : Skill :=
  { id := "sql", name := "SQL", description := "Structured query language",
    skill_type := .technical }

/-- Claim C2's job: python@0.9/advanced and sql@0.7/intermediate. -/
def dataScientistJob : Job :=
  { id := "data_scientist", title := "Data Scientist", description := "",
    required_skills :=
      [{ skill_id := "python", importance := 9/10, required_level := .advanced },
       { skill_id := "sql", importance := 7/10, required_level := .intermediate }] }

def c2Ont : SkillOntology :=
  add_job (add_skill (add_skill {} pythonSkill) sqlSkill) dataScientistJob

def c2Matcher : SkillMatcher := mkSkillMatcher c2Ont

/-- The expected synonym match for the input "Python". -/
def c2Match : SkillMatch :=
  { user_term := "Python", matched_skill := pythonSkill, match_score := 9/10,
    match_type := "synonym", confidence := 9/10 }

/-- The expected job match: score 9/16 = 0.5625, missing only "SQL". -/
def c2JobMatch : JobMatch :=
  { job := dataScientistJob, match_score := 9/16, matched_skills := [c2Match],
    missing_skills := ["SQL"], transferable_skills := [] }

/-- Claim C1: a requirement referencing a skill id absent from the skills
map. -/
def ghostReq : SkillRequirement :=
  { skill_id := "ghost", importance := 1/2, required_level := .beginner }

def ghostJob : Job :=
  { id := "j", title := "J", description := "", required_skills := [ghostReq] }

/-- Catalog whose only job requires the unregistered skill "ghost". -/
def c1Ont : SkillOntology := add_job {} ghostJob

/-- The gap `identify_skill_gaps` emits for the dangling requirement: its
display name is the literal "Unknown", not the raw id. -/
def c1Gap : SkillGap :=
  { skill_id := "ghost", skill_name := "Unknown", current_level := none,
    required_level := .beginner, importance := 1/2, gap_score := 1 }

/-- Dependency-ordering property of a milestone sequence: every prerequisite
of every milestone is the skill name of some strictly earlier milestone. -/
def WellSequenced (l : List LearningMilestone) : Prop :=
  ∀ i, (hi : i < l.length) → ∀ p ∈ (l.get ⟨i, hi⟩).prerequisites,
    ∃ j, ∃ hj : j < l.length, j < i ∧ (l.get ⟨j, hj⟩).skill_name = p

/-! ## Theorems -/

/-! ### Association-list and sort facts -/

theorem pyLookup_pyDictSet_same {α : Type} (d : List (String × α)) (k : String) (v : α) :
    pyLookup (pyDictSet d k v) k = some v := by
  induction d with
  | nil => simp [pyDictSet, pyLookup]
  | cons p rest ih =>
    obtain ⟨pk, pv⟩ := p
    by_cases h : pk = k
    · simp [pyDictSet, pyLookup, h]
    · simp [pyDictSet, pyLookup, h, ih]

theorem pyLookup_pyDictSet_other {α : Type} (d : List (String × α)) (k k' : String) (v : α)
    (h : k' ≠ k) : pyLookup (pyDictSet d k v) k' = pyLookup d k' := by
  induction d with
  | nil => simp [pyDictSet, pyLookup, Ne.symm h]
  | cons p rest ih =>
    obtain ⟨pk, pv⟩ := p
    by_cases hp : pk = k
    · have hp' : pk ≠ k' := by rw [hp]; exact Ne.symm h
      simp [pyDictSet, hp, pyLookup, hp', Ne.symm h]
    · by_cases hp' : pk = k'
      · simp [pyDictSet, hp, pyLookup, hp', h]
      · simp [pyDictSet, hp, pyLookup, hp', ih]

theorem mem_pySet (xs : List String) (x : String) : x ∈ pySet xs ↔ x ∈ xs := by
  simp [pySet]

theorem mem_insertDescBy {α : Type} (key : α → ℚ) (x a : α) (l : List α) :
    a ∈ insertDescBy key x l ↔ a = x ∨ a ∈ l := by
  induction l with
  | nil => simp [insertDescBy]
  | cons y ys ih =>
    by_cases h : key x ≤ key y
    · simp only [insertDescBy, if_pos h, List.mem_cons, ih]
      tauto
    · simp only [insertDescBy, if_neg h, List.mem_cons]

theorem pairwise_insertDescBy {α : Type} (key : α → ℚ) (x : α) (l : List α)
    (h : l.Pairwise (fun a b => key b ≤ key a)) :
    (insertDescBy key x l).Pairwise (fun a b => key b ≤ key a) := by
  induction l with
  | nil => simp [insertDescBy]
  | cons y ys ih =>
    rcases List.pairwise_cons.mp h with ⟨hy, hys⟩
    by_cases hxy : key x ≤ key y
    · simp only [insertDescBy, if_pos hxy]
      refine List.pairwise_cons.mpr ⟨?_, ih hys⟩
      intro a ha
      rcases (mem_insertDescBy key x a ys).mp ha with rfl | ha'
      · exact hxy
      · exact hy a ha'
    · simp only [insertDescBy, if_neg hxy]
      refine List.pairwise_cons.mpr ⟨?_, h⟩
      intro a ha
      rcases List.mem_cons.mp ha with rfl | ha'
      · exact le_of_not_le hxy
      · exact le_trans (hy a ha') (le_of_not_le hxy)

theorem mem_pySortDescBy {α : Type} (key : α → ℚ) (l : List α) (a : α) :
    a ∈ pySortDescBy key l ↔ a ∈ l := by
  suffices h : ∀ acc : List α,
      a ∈ l.foldl (fun acc x => insertDescBy key x acc) acc ↔ a ∈ acc ∨ a ∈ l by
    simpa [pySortDescBy] using h []
  induction l with
  | nil => simp
  | cons x xs ih =>
    intro acc
    simp only [List.foldl_cons, ih, mem_insertDescBy, List.mem_cons]
    tauto

theorem pairwise_pySortDescBy {α : Type} (key : α → ℚ) (l : List α) :
    (pySortDescBy key l).Pairwise (fun a b => key b ≤ key a) := by
  suffices h : ∀ acc : List α, acc.Pairwise (fun a b => key b ≤ key a) →
      (l.foldl (fun acc x => insertDescBy key x acc) acc).Pairwise
        (fun a b => key b ≤ key a) by
    exact h [] (by simp)
  induction l with
  | nil => exact fun acc h => h
  | cons x xs ih =>
    intro acc hacc
    exact ih _ (pairwise_insertDescBy key x acc hacc)

theorem pyLookup_mem_pyValues {α : Type} (d : List (String × α)) (k : String) (v : α)
    (h : pyLookup d k = some v) : v ∈ pyValues d := by
  induction d with
  | nil => simp [pyLookup] at h
  | cons p rest ih =>
    obtain ⟨pk, pv⟩ := p
    by_cases hp : pk = k
    · simp [pyLookup, hp] at h
      simp [pyValues, h]
    · simp only [pyLookup, if_neg hp] at h
      simp [pyValues] at ih ⊢
      exact Or.inr (ih h)

/-! ### Claim theorems -/

/-- C10: `add_skill` is an upsert that fully replaces and never merges:
afterwards `skills[s.id]` is `s`, `skill_relationships[s.id]` is exactly
`set(s.related_skills)`, and every other id's entries in both maps are
unchanged. -/
theorem add_skill_upsert (ont : SkillOntology) (s : Skill) :
    pyLookup (add_skill ont s).skills s.id = some s ∧
    (∃ adj, pyLookup (add_skill ont s).skill_relationships s.id = some adj ∧
      ∀ x, x ∈ adj ↔ x ∈ s.related_skills) ∧
    (∀ k, k ≠ s.id →
      pyLookup (add_skill ont s).skills k = pyLookup ont.skills k ∧
      pyLookup (add_skill ont s).skill_relationships k =
        pyLookup ont.skill_relationships k) := by
  refine ⟨?_, ⟨pySet s.related_skills, ?_, fun x => mem_pySet _ x⟩, ?_⟩
  · simpa [add_skill] using pyLookup_pyDictSet_same ont.skills s.id s
  · simpa [add_skill] using
      pyLookup_pyDictSet_same ont.skill_relationships s.id (pySet s.related_skills)
  · intro k hk
    constructor
    · simpa [add_skill] using pyLookup_pyDictSet_other ont.skills s.id k s hk
    · simpa [add_skill] using
        pyLookup_pyDictSet_other ont.skill_relationships s.id k (pySet s.related_skills) hk

theorem add_skill_upsert_witness :
    pyLookup (add_skill c10Ont c10NewSkill).skills "python" = some c10NewSkill ∧
    (∃ adj, pyLookup (add_skill c10Ont c10NewSkill).skill_relationships "python" = some adj ∧
      ∀ x, x ∈ adj ↔ x ∈ c10NewSkill.related_skills) ∧
    pyLookup (add_skill c10Ont c10NewSkill).skills "other" = pyLookup c10Ont.skills "other" ∧
    pyLookup (add_skill c10Ont c10NewSkill).skill_relationships "other" =
      pyLookup c10Ont.skill_relationships "other" := by
  have h := add_skill_upsert c10Ont c10NewSkill
  have hother := h.2.2 "other" (by decide)
  exact ⟨h.1, h.2.1, hother.1, hother.2⟩

/-- C9: `get_related_skills` never raises; an id with no adjacency entry
yields `[]`, and a skill is in the result exactly when it is the registered
skill of a member of the adjacency set (dangling ids are silently
omitted). -/
theorem get_related_skills_spec (ont : SkillOntology) (skill_id : String) :
    (pyLookup ont.skill_relationships skill_id = none →
      get_related_skills ont skill_id = []) ∧
    (∀ s : Skill, s ∈ get_related_skills ont skill_id ↔
      ∃ rid ∈ adjacencyOf ont skill_id, pyLookup ont.skills rid = some s) := by
  constructor
  · intro h
    simp [get_related_skills, h]
  · intro s
    cases h : pyLookup ont.skill_relationships skill_id with
    | none => simp [get_related_skills, adjacencyOf, h]
    | some ids => simp [get_related_skills, adjacencyOf, h, List.mem_filterMap]

theorem get_related_skills_spec_witness :
    get_related_skills c9Ont "zzz" = [] ∧ c9SkillB ∈ get_related_skills c9Ont "a" := by
  refine ⟨(get_related_skills_spec c9Ont "zzz").1 (by decide), ?_⟩
  exact ((get_related_skills_spec c9Ont "a").2 c9SkillB).mpr ⟨"b", by decide, by decide⟩

/-- C4 (counterexample): with `adj(a) = {b}` and `adj(b) = ∅`, `b` lies in
`a`'s adjacency set, yet the similarity is `0.0`, not the `0.8` the claim
requires for "one of a and b is in the other's adjacency set" — the code
only tests `a ∈ adj(b)`. -/
theorem calculate_skill_similarity_counterexample :
    "b" ∈ adjacencyOf c4Ont "a" ∧ "a" ∉ adjacencyOf c4Ont "b" ∧
    calculate_skill_similarity c4Ont "a" "b" = 0 ∧ (0 : ℚ) ≠ 4/5 := by
  refine ⟨by decide, by decide, ?_, by norm_num⟩
  simp [calculate_skill_similarity, c4Ont, pyLookup]

/-- C4 (amended): `calculate_skill_similarity a b` is `1.0` when `a = b`;
`0.8` when `a` is in `b`'s adjacency set (one direction only); else, when
both adjacency sets are non-empty, `0.6 × |intersection| / |union|` of the
two adjacency sets; else `0.0`.  (Stated for duplicate-free adjacency lists,
which is how `add_skill` materialises them.) -/
theorem calculate_skill_similarity_amended (ont : SkillOntology) (a b : String)
    (ha : (adjacencyOf ont a).Nodup) (hb : (adjacencyOf ont b).Nodup) :
    calculate_skill_similarity ont a b =
      if a = b then 1
      else if a ∈ adjacencyOf ont b then 4/5
      else if adjacencyOf ont a ≠ [] ∧ adjacencyOf ont b ≠ [] then
        (3/5) * (((adjacencyOf ont a).toFinset ∩ (adjacencyOf ont b).toFinset).card : ℚ) /
          (((adjacencyOf ont a).toFinset ∪ (adjacencyOf ont b).toFinset).card : ℚ)
      else 0 := by
  by_cases hab : a = b
  · simp [calculate_skill_similarity, hab]
  · by_cases hmem : a ∈ adjacencyOf ont b
    · rw [if_neg hab, if_pos hmem]
      simp only [adjacencyOf] at hmem
      simp only [calculate_skill_similarity]
      rw [if_neg hab, if_pos hmem]
    · by_cases hne : adjacencyOf ont a ≠ [] ∧ adjacencyOf ont b ≠ []
      · have huni : (adjacencyOf ont a) ++
            ((adjacencyOf ont b).filter (· ∉ adjacencyOf ont a)) ≠ [] := by
          intro hcontra
          exact hne.1 (List.append_eq_nil.mp hcontra).1
        have hinter : ((adjacencyOf ont a).filter (· ∈ adjacencyOf ont b)).length =
            ((adjacencyOf ont a).toFinset ∩ (adjacencyOf ont b).toFinset).card := by
          have hnd : ((adjacencyOf ont a).filter (· ∈ adjacencyOf ont b)).Nodup :=
            ha.filter _
          rw [← List.toFinset_card_of_nodup hnd]
          congr 1
          ext x
          simp [List.mem_filter]
        have hunion : ((adjacencyOf ont a) ++
              ((adjacencyOf ont b).filter (· ∉ adjacencyOf ont a))).length =
            ((adjacencyOf ont a).toFinset ∪ (adjacencyOf ont b).toFinset).card := by
          have hnd : ((adjacencyOf ont a) ++
              ((adjacencyOf ont b).filter (· ∉ adjacencyOf ont a))).Nodup := by
            refine List.Nodup.append ha (hb.filter _) ?_
            intro x hx hx'
            have hmemf := List.of_mem_filter hx'
            simp at hmemf
            exact hmemf hx
          rw [← List.toFinset_card_of_nodup hnd]
          congr 1
          ext x
          simp [List.mem_filter]
          tauto
        rw [if_neg hab, if_neg hmem, if_pos hne, ← hinter, ← hunion]
        simp only [adjacencyOf] at hmem hne huni ⊢
        simp only [calculate_skill_similarity]
        rw [if_neg hab, if_neg hmem, if_pos hne, if_pos huni]
      · rw [if_neg hab, if_neg hmem, if_neg hne]
        simp only [adjacencyOf] at hmem hne
        simp only [calculate_skill_similarity]
        rw [if_neg hab, if_neg hmem, if_neg hne]

theorem calculate_skill_similarity_amended_witness :
    calculate_skill_similarity c9Ont "a" "b" =
      if ("a" : String) = "b" then 1
      else if "a" ∈ adjacencyOf c9Ont "b" then 4/5
      else if adjacencyOf c9Ont "a" ≠ [] ∧ adjacencyOf c9Ont "b" ≠ [] then
        (3/5) * (((adjacencyOf c9Ont "a").toFinset ∩ (adjacencyOf c9Ont "b").toFinset).card : ℚ) /
          (((adjacencyOf c9Ont "a").toFinset ∪ (adjacencyOf c9Ont "b").toFinset).card : ℚ)
      else 0 :=
  calculate_skill_similarity_amended c9Ont "a" "b" (by decide) (by decide)

/-! ### Facts about the per-requirement credit -/

theorem level_values_pos (l : ProficiencyLevel) : 0 < level_values l := by
  cases l <;> simp [level_values]

theorem requirement_credit_nonneg (us : List UserSkill) (req : SkillRequirement)
    (h : 0 ≤ req.importance) : 0 ≤ requirement_credit us req := by
  unfold requirement_credit
  cases userSkillDict us req.skill_id with
  | none => simp
  | some u =>
    simp only
    apply mul_nonneg h
    split
    · norm_num
    · exact div_nonneg (Nat.cast_nonneg _) (Nat.cast_nonneg _)

theorem requirement_credit_le_importance (us : List UserSkill) (req : SkillRequirement)
    (h : 0 ≤ req.importance) : requirement_credit us req ≤ req.importance := by
  unfold requirement_credit
  cases userSkillDict us req.skill_id with
  | none => simpa using h
  | some u =>
    simp only
    have hprof : (if level_values req.required_level ≤ level_values u.proficiency_level
        then (1 : ℚ)
        else (level_values u.proficiency_level : ℚ) / (level_values req.required_level : ℚ)) ≤ 1 := by
      split
      · exact le_refl 1
      · rename_i hlt
        refine (div_le_one ?_).mpr ?_
        · exact_mod_cast level_values_pos req.required_level
        · exact_mod_cast le_of_lt (lt_of_not_le hlt)
    calc req.importance *
          (if level_values req.required_level ≤ level_values u.proficiency_level then (1 : ℚ)
           else (level_values u.proficiency_level : ℚ) / (level_values req.required_level : ℚ))
        ≤ req.importance * 1 := mul_le_mul_of_nonneg_left hprof h
      _ = req.importance := mul_one _

theorem requirement_credit_of_satisfied (us : List UserSkill) (req : SkillRequirement)
    (u : UserSkill) (husd : userSkillDict us req.skill_id = some u)
    (hlev : level_values req.required_level ≤ level_values u.proficiency_level) :
    requirement_credit us req = req.importance := by
  unfold requirement_credit
  rw [husd]
  simp [hlev]

/-- C3: `calculate_job_match_score` returns 0 for an unknown job id, for a
job with no requirements, and for zero total importance; lies in `[0, 1]`
whenever every requirement's importance does; and is exactly `1.0` when the
total importance is positive and the user holds every required skill at or
above its required level. -/
theorem calculate_job_match_score_spec (ont : SkillOntology) (user_skills : List UserSkill)
    (job_id : String) :
    (pyLookup ont.jobs job_id = none → calculate_job_match_score ont user_skills job_id = 0) ∧
    (∀ job, pyLookup ont.jobs job_id = some job →
      (job.required_skills = [] → calculate_job_match_score ont user_skills job_id = 0) ∧
      ((job.required_skills.map (·.importance)).sum = 0 →
        calculate_job_match_score ont user_skills job_id = 0) ∧
      ((∀ req ∈ job.required_skills, 0 ≤ req.importance ∧ req.importance ≤ 1) →
        0 ≤ calculate_job_match_score ont user_skills job_id ∧
          calculate_job_match_score ont user_skills job_id ≤ 1) ∧
      (0 < (job.required_skills.map (·.importance)).sum →
        (∀ req ∈ job.required_skills, ∃ us, userSkillDict user_skills req.skill_id = some us ∧
          level_values req.required_level ≤ level_values us.proficiency_level) →
        calculate_job_match_score ont user_skills job_id = 1)) := by
  constructor
  · intro h
    simp [calculate_job_match_score, h]
  · intro job hjob
    refine ⟨?_, ?_, ?_, ?_⟩
    · intro hempty
      simp [calculate_job_match_score, hjob, hempty]
    · intro htotal
      by_cases hempty : job.required_skills = []
      · simp [calculate_job_match_score, hjob, hempty]
      · simp [calculate_job_match_score, hjob, hempty, htotal]
    · intro himp
      by_cases hempty : job.required_skills = []
      · simp [calculate_job_match_score, hjob, hempty]
      · by_cases htotal : (job.required_skills.map (·.importance)).sum = 0
        · simp [calculate_job_match_score, hjob, hempty, htotal]
        · have hrw : calculate_job_match_score ont user_skills job_id =
              (job.required_skills.map (requirement_credit user_skills)).sum /
                (job.required_skills.map (·.importance)).sum := by
            simp [calculate_job_match_score, hjob, hempty, htotal]
          have hS0 : 0 ≤ (job.required_skills.map (requirement_credit user_skills)).sum := by
            apply List.sum_nonneg
            intro x hx
            rcases List.mem_map.mp hx with ⟨req, hreq, rfl⟩
            exact requirement_credit_nonneg user_skills req (himp req hreq).1
          have hT0 : 0 ≤ (job.required_skills.map (·.importance)).sum := by
            apply List.sum_nonneg
            intro x hx
            rcases List.mem_map.mp hx with ⟨req, hreq, rfl⟩
            exact (himp req hreq).1
          have hTpos : 0 < (job.required_skills.map (·.importance)).sum :=
            lt_of_le_of_ne hT0 (Ne.symm htotal)
          have hST : (job.required_skills.map (requirement_credit user_skills)).sum ≤
              (job.required_skills.map (·.importance)).sum := by
            apply List.sum_le_sum
            intro req hreq
            exact requirement_credit_le_importance user_skills req (himp req hreq).1
          rw [hrw]
          exact ⟨div_nonneg hS0 hT0, (div_le_one hTpos).mpr hST⟩
    · intro hpos hall
      have hempty : job.required_skills ≠ [] := by
        intro hcontra
        rw [hcontra] at hpos
        simp at hpos
      have htotal : (job.required_skills.map (·.importance)).sum ≠ 0 := ne_of_gt hpos
      have hrw : calculate_job_match_score ont user_skills job_id =
          (job.required_skills.map (requirement_credit user_skills)).sum /
            (job.required_skills.map (·.importance)).sum := by
        simp [calculate_job_match_score, hjob, hempty, htotal]
      have hmapeq : job.required_skills.map (requirement_credit user_skills) =
          job.required_skills.map (·.importance) := by
        apply List.map_congr_left
        intro req hreq
        rcases hall req hreq with ⟨us, husd, hlev⟩
        exact requirement_credit_of_satisfied user_skills req us husd hlev
      rw [hrw, hmapeq]
      exact div_self htotal

theorem calculate_job_match_score_spec_witness :
    calculate_job_match_score c3Ont c3User "nope" = 0 ∧
    (0 ≤ calculate_job_match_score c3Ont c3User "j3" ∧
      calculate_job_match_score c3Ont c3User "j3" ≤ 1) ∧
    calculate_job_match_score c3Ont c3User "j3" = 1 := by
  have h0 := (calculate_job_match_score_spec c3Ont c3User "nope").1 rfl
  have h := (calculate_job_match_score_spec c3Ont c3User "j3").2 c3Job rfl
  refine ⟨h0, h.2.2.1 ?_, h.2.2.2 ?_ ?_⟩
  · intro req hr
    simp only [c3Job] at hr
    simp at hr
    rcases hr with rfl | rfl <;> norm_num [c3Req1, c3Req2]
  · norm_num [c3Job, c3Req1, c3Req2]
  · intro req hr
    simp only [c3Job] at hr
    simp at hr
    rcases hr with rfl | rfl
    · exact ⟨{ skill_id := "a", proficiency_level := .advanced }, rfl,
        by norm_num [c3Req1, level_values]⟩
    · exact ⟨{ skill_id := "b", proficiency_level := .beginner }, rfl,
        by norm_num [c3Req2, level_values]⟩

theorem gap_for_requirement_skill_id (ont : SkillOntology) (us : List UserSkill)
    (req : SkillRequirement) (g : SkillGap)
    (h : gap_for_requirement ont us req = some g) : g.skill_id = req.skill_id := by
  unfold gap_for_requirement at h
  cases husd : userSkillDict us req.skill_id with
  | none =>
    rw [husd] at h
    simp only [Option.some.injEq] at h
    subst h
    rfl
  | some u =>
    rw [husd] at h
    simp only at h
    split at h
    · simp only [Option.some.injEq] at h
      subst h
      rfl
    · exact absurd h (by simp)

/-- C6: for a known job, `identify_skill_gaps` emits a gap with
`gap_score = 1.0` for every required skill absent from the user's set, a gap
with `gap_score = (required − current)/required < 1.0` for every skill held
below its required level, no gap for a skill all of whose requirements are
met at or above the required level, and returns the list sorted descending
by `importance × gap_score`. -/
theorem identify_skill_gaps_spec (ont : SkillOntology) (user_skills : List UserSkill)
    (job_id : String) (job : Job) (hjob : pyLookup ont.jobs job_id = some job) :
    (∀ req ∈ job.required_skills, userSkillDict user_skills req.skill_id = none →
      ∃ g ∈ identify_skill_gaps ont user_skills job_id,
        g.skill_id = req.skill_id ∧ g.current_level = none ∧
        g.required_level = req.required_level ∧ g.importance = req.importance ∧
        g.gap_score = 1) ∧
    (∀ req ∈ job.required_skills, ∀ us, userSkillDict user_skills req.skill_id = some us →
      level_values us.proficiency_level < level_values req.required_level →
      ∃ g ∈ identify_skill_gaps ont user_skills job_id,
        g.skill_id = req.skill_id ∧ g.current_level = some us.proficiency_level ∧
        g.importance = req.importance ∧
        g.gap_score = ((level_values req.required_level : ℚ) -
            (level_values us.proficiency_level : ℚ)) / (level_values req.required_level : ℚ) ∧
        g.gap_score < 1) ∧
    (∀ sid : String,
      (∀ req ∈ job.required_skills, req.skill_id = sid →
        ∃ us, userSkillDict user_skills sid = some us ∧
          level_values req.required_level ≤ level_values us.proficiency_level) →
      ∀ g ∈ identify_skill_gaps ont user_skills job_id, g.skill_id ≠ sid) ∧
    (identify_skill_gaps ont user_skills job_id).Pairwise
      (fun g1 g2 => g2.importance * g2.gap_score ≤ g1.importance * g1.gap_score) := by
  have hres : identify_skill_gaps ont user_skills job_id =
      pySortDescBy (fun g => g.importance * g.gap_score)
        (job.required_skills.filterMap (gap_for_requirement ont user_skills)) := by
    simp [identify_skill_gaps, hjob]
  refine ⟨?_, ?_, ?_, ?_⟩
  · intro req hreq husd
    have hg : gap_for_requirement ont user_skills req = some
        { skill_id := req.skill_id,
          skill_name := match pyLookup ont.skills req.skill_id with
            | some s => s.name
            | none => "Unknown",
          current_level := none, required_level := req.required_level,
          importance := req.importance, gap_score := 1 } := by
      unfold gap_for_requirement
      rw [husd]
    rw [hres]
    exact ⟨_, (mem_pySortDescBy _ _ _).mpr (List.mem_filterMap.mpr ⟨req, hreq, hg⟩),
      rfl, rfl, rfl, rfl, rfl⟩
  · intro req hreq us husd hlt
    have hg : gap_for_requirement ont user_skills req = some
        { skill_id := req.skill_id,
          skill_name := match pyLookup ont.skills req.skill_id with
            | some s => s.name
            | none => "Unknown",
          current_level := some us.proficiency_level, required_level := req.required_level,
          importance := req.importance,
          gap_score := ((level_values req.required_level : ℚ) -
              (level_values us.proficiency_level : ℚ)) /
            (level_values req.required_level : ℚ) } := by
      unfold gap_for_requirement
      rw [husd]
      simp [hlt]
    have hscore : ((level_values req.required_level : ℚ) -
        (level_values us.proficiency_level : ℚ)) / (level_values req.required_level : ℚ) < 1 := by
      have hrpos : (0 : ℚ) < (level_values req.required_level : ℚ) := by
        exact_mod_cast level_values_pos req.required_level
      have hupos : (0 : ℚ) < (level_values us.proficiency_level : ℚ) := by
        exact_mod_cast level_values_pos us.proficiency_level
      refine (div_lt_one hrpos).mpr ?_
      linarith
    rw [hres]
    exact ⟨_, (mem_pySortDescBy _ _ _).mpr (List.mem_filterMap.mpr ⟨req, hreq, hg⟩),
      rfl, rfl, rfl, rfl, hscore⟩
  · intro sid hall g hg hcontra
    rw [hres] at hg
    rcases List.mem_filterMap.mp ((mem_pySortDescBy _ _ _).mp hg) with ⟨req, hreq, hfr⟩
    have hid : g.skill_id = req.skill_id := gap_for_requirement_skill_id ont user_skills req g hfr
    have hreqsid : req.skill_id = sid := by rw [← hid, hcontra]
    rcases hall req hreq hreqsid with ⟨us, husd, hlev⟩
    have hnone : gap_for_requirement ont user_skills req = none := by
      unfold gap_for_requirement
      rw [hreqsid, husd]
      simp [not_lt.mpr hlev]
    rw [hnone] at hfr
    exact absurd hfr (by simp)
  · rw [hres]
    exact pairwise_pySortDescBy _ _

theorem identify_skill_gaps_spec_witness :
    (∃ g ∈ identify_skill_gaps c6Ont c6User "j6",
      g.skill_id = "a" ∧ g.current_level = none ∧ g.required_level = .advanced ∧
      g.importance = 9/10 ∧ g.gap_score = 1) ∧
    (∃ g ∈ identify_skill_gaps c6Ont c6User "j6",
      g.skill_id = "b" ∧ g.current_level = some .beginner ∧ g.importance = 1/2 ∧
      g.gap_score = ((3 : ℚ) - 1) / 3 ∧ g.gap_score < 1) ∧
    (∀ g ∈ identify_skill_gaps c6Ont c6User "j6", g.skill_id ≠ "c") := by
  have h := identify_skill_gaps_spec c6Ont c6User "j6" c6Job rfl
  refine ⟨?_, ?_, ?_⟩
  · have h1 := h.1 c6ReqA (by simp [c6Job]) rfl
    exact h1
  · have h2 := h.2.1 c6ReqB (by simp [c6Job])
      { skill_id := "b", proficiency_level := .beginner } rfl (by decide)
    exact h2
  · refine h.2.2.1 "c" ?_
    intro req hreq hid
    simp only [c6Job] at hreq
    simp at hreq
    rcases hreq with rfl | rfl | rfl
    · exact absurd hid (by decide)
    · exact absurd hid (by decide)
    · exact ⟨{ skill_id := "c", proficiency_level := .expert }, rfl, by decide⟩

/-- C7 (counterexample): with no growth data, a validation signal of
confidence exactly 0.7 with the current flag set, and match score 0.5, the
code leaves market confidence at 0.5 (strict `> 0.7`) and yields overall
confidence  0.5, while the claim's `≥ 0.7` formula yields 0.58. -/
theorem recommendation_confidence_counterexample :
    (create_recommendation c7Job c7JobMatch none (some c7Validation)).confidence = 1/2 ∧
    claimC7_confidence (1/2) none (some (7/10, true)) = 29/50 ∧
    ((1 : ℚ)/2) ≠ 29/50 := by
  refine ⟨?_, ?_, by norm_num⟩
  · norm_num [create_recommendation, market_confidence_of, c7JobMatch, c7Validation]
  · norm_num [claimC7_confidence, min_def]

/-- C7 (amended): for every job match and every combination of optional
market inputs, the recommendation's overall confidence equals
`0.6 × match_score + 0.4 × market_confidence`, where market confidence
starts at 0.5, becomes `min(0.9, 0.5 + g/50)` for positive supplied growth
and `max(0.1, 0.5 + g/100)` for negative, is then raised by 0.2 (cap 0.95)
when a validation signal has confidence strictly above 0.7 and a
current-data flag, and lowered by 0.2 (floor 0.2) when the validation
confidence is below 0.4. -/
theorem recommendation_confidence_amended (job : Job) (jm : JobMatch)
    (bls : Option JobProjection) (mv : Option MarketValidation) :
    (create_recommendation job jm bls mv).confidence =
      amendedC7_confidence jm.match_score (bls.bind (·.change_percent))
        (mv.map (fun v => (v.confidence, v.is_current))) := by
  cases bls with
  | none =>
    cases mv with
    | none =>
      simp [create_recommendation, market_confidence_of, amendedC7_confidence]
      ring
    | some v =>
      simp only [create_recommendation, market_confidence_of, amendedC7_confidence,
        Option.bind, Option.map]
      split_ifs <;> ring
  | some p =>
    cases hcp : p.change_percent with
    | none =>
      cases mv with
      | none =>
        simp [create_recommendation, market_confidence_of, amendedC7_confidence, hcp]
        ring
      | some v =>
        simp only [create_recommendation, market_confidence_of, amendedC7_confidence,
          Option.bind, Option.map, hcp]
        split_ifs <;> ring
    | some g =>
      cases mv with
      | none =>
        simp only [create_recommendation, market_confidence_of, amendedC7_confidence,
          Option.bind, Option.map, hcp]
        split_ifs <;> ring
      | some v =>
        simp only [create_recommendation, market_confidence_of, amendedC7_confidence,
          Option.bind, Option.map, hcp]
        split_ifs <;> ring

/-! ### Matching-strategy facts -/

theorem exact_match_type (m : SkillMatcher) (t : String) (e : SkillMatch)
    (h : exact_match m t = some e) : e.match_type = "exact" := by
  simp only [exact_match] at h
  rcases Option.map_eq_some'.mp h with ⟨s, _, he⟩
  rw [← he]

theorem synonym_match_type (m : SkillMatcher) (t : String) (e : SkillMatch)
    (h : synonym_match m t = some e) : e.match_type = "synonym" := by
  simp only [synonym_match] at h
  cases hl : pyLookup m.synonym_index (pyStrip (pyLower t)) with
  | none => rw [hl] at h; exact absurd h (by simp)
  | some ids =>
    rw [hl] at h
    cases ids with
    | nil => exact absurd h (by simp)
    | cons id0 rest =>
      simp only at h
      rcases Option.map_eq_some'.mp h with ⟨s, _, he⟩
      rw [← he]

theorem fuzzy_match_type (m : SkillMatcher) (t : String) (e : SkillMatch)
    (h : fuzzy_match m t = some e) : e.match_type = "fuzzy" := by
  simp only [fuzzy_match] at h
  cases hb : fuzzy_best m (pyStrip (pyLower t)) with
  | mk os sc =>
    rw [hb] at h
    cases os with
    | none => exact absurd h (by simp)
    | some s =>
      simp only [Option.some.injEq] at h
      rw [← h]

theorem semantic_match_type (m : SkillMatcher) (t : String) (e : SkillMatch)
    (h : semantic_match m t = some e) : e.match_type = "semantic" := by
  simp only [semantic_match] at h
  cases hb : semantic_best m (extract_keywords (pyStrip (pyLower t))) with
  | mk os sc =>
    rw [hb] at h
    cases os with
    | none => exact absurd h (by simp)
    | some s =>
      simp only at h
      split at h
      · simp only [Option.some.injEq] at h
        rw [← h]
      · exact absurd h (by simp)

/-- `match_user_skills` on a single input is the cascade
exact → synonym → fuzzy → semantic, first hit wins. -/
theorem match_user_skills_singleton (m : SkillMatcher) (d : String) :
    match_user_skills m [d] =
      ((exact_match m d).orElse (fun _ => (synonym_match m d).orElse (fun _ =>
        (fuzzy_match m d).orElse (fun _ => semantic_match m d)))).toList := by
  unfold match_user_skills
  cases hv : (exact_match m d).orElse (fun _ => (synonym_match m d).orElse (fun _ =>
      (fuzzy_match m d).orElse (fun _ => semantic_match m d))) with
  | none => simp [List.filterMap_cons, hv]
  | some mm => simp [List.filterMap_cons, hv]

/-- C5: the four matching strategies are tried in the strict order exact,
synonym, fuzzy, semantic, first hit winning: whenever some skill's display
name case-insensitively equals the input, the single result is an exact
match with score 1.0 — even if the input is also a registered synonym of a
different skill — and a result tagged fuzzy implies the exact and synonym
stages returned nothing, a result tagged semantic that all three earlier
stages returned nothing. -/
theorem matching_cascade_precedence (ont : SkillOntology) (input : String) :
    ((∃ skill ∈ pyValues ont.skills, pyLower skill.name = pyStrip (pyLower input)) →
      ∃ skill, pyLower skill.name = pyStrip (pyLower input) ∧
        match_user_skills (mkSkillMatcher ont) [input] =
          [{ user_term := input, matched_skill := skill, match_score := 1,
             match_type := "exact", confidence := 1 }]) ∧
    (∀ sm ∈ match_user_skills (mkSkillMatcher ont) [input],
      (sm.match_type = "fuzzy" →
        exact_match (mkSkillMatcher ont) input = none ∧
        synonym_match (mkSkillMatcher ont) input = none) ∧
      (sm.match_type = "semantic" →
        exact_match (mkSkillMatcher ont) input = none ∧
        synonym_match (mkSkillMatcher ont) input = none ∧
        fuzzy_match (mkSkillMatcher ont) input = none)) := by
  constructor
  · rintro ⟨s, hs, hname⟩
    have hfind : ((pyValues ont.skills).find?
        (fun skill => pyLower skill.name = pyStrip (pyLower input))).isSome := by
      rw [List.find?_isSome]
      exact ⟨s, hs, by simpa using hname⟩
    rcases Option.isSome_iff_exists.mp hfind with ⟨e, he⟩
    have hp : pyLower e.name = pyStrip (pyLower input) := by
      have := List.find?_some he
      simpa using this
    have hexact : exact_match (mkSkillMatcher ont) input = some
        { user_term := input, matched_skill := e, match_score := 1,
          match_type := "exact", confidence := 1 } := by
      simp only [exact_match, mkSkillMatcher]
      rw [he]
      rfl
    refine ⟨e, hp, ?_⟩
    rw [match_user_skills_singleton, hexact]
    rfl
  · intro sm hsm
    rw [match_user_skills_singleton] at hsm
    cases he : exact_match (mkSkillMatcher ont) input with
    | some e =>
      rw [he] at hsm
      simp only [Option.some_orElse', Option.toList, List.mem_singleton] at hsm
      subst hsm
      have ht := exact_match_type _ _ _ he
      constructor
      · intro hf
        exact absurd (ht.symm.trans hf) (by decide)
      · intro hf
        exact absurd (ht.symm.trans hf) (by decide)
    | none =>
      rw [he] at hsm
      simp only [Option.none_orElse'] at hsm
      cases hs : synonym_match (mkSkillMatcher ont) input with
      | some e =>
        rw [hs] at hsm
        simp only [Option.some_orElse', Option.toList, List.mem_singleton] at hsm
        subst hsm
        have ht := synonym_match_type _ _ _ hs
        constructor
        · intro hf
          exact absurd (ht.symm.trans hf) (by decide)
        · intro hf
          exact absurd (ht.symm.trans hf) (by decide)
      | none =>
        rw [hs] at hsm
        simp only [Option.none_orElse'] at hsm
        cases hfz : fuzzy_match (mkSkillMatcher ont) input with
        | some e =>
          rw [hfz] at hsm
          simp only [Option.some_orElse', Option.toList, List.mem_singleton] at hsm
          subst hsm
          have ht := fuzzy_match_type _ _ _ hfz
          constructor
          · intro _
            exact ⟨rfl, rfl⟩
          · intro hf
            exact absurd (ht.symm.trans hf) (by decide)
        | none =>
          rw [hfz] at hsm
          simp only [Option.none_orElse'] at hsm
          cases hsem : semantic_match (mkSkillMatcher ont) input with
          | some e =>
            rw [hsem] at hsm
            simp only [Option.toList, List.mem_singleton] at hsm
            subst hsm
            have ht := semantic_match_type _ _ _ hsem
            constructor
            · intro hf
              exact absurd (ht.symm.trans hf) (by decide)
            · intro _
              exact ⟨rfl, rfl, rfl⟩
          | none =>
            rw [hsem] at hsm
            exact absurd hsm (by simp)

theorem matching_cascade_precedence_witness :
    (∃ skill, pyLower skill.name = pyStrip (pyLower "Git") ∧
      match_user_skills (mkSkillMatcher c5Ont) ["Git"] =
        [{ user_term := "Git", matched_skill := skill, match_score := 1,
           match_type := "exact", confidence := 1 }]) ∧
    synonym_match (mkSkillMatcher c5Ont) "Git" ≠ none := by
  constructor
  · exact (matching_cascade_precedence c5Ont "Git").1 ⟨c5GitSkill, by decide, by decide⟩
  · decide

/-- C2: in the example scenario, the input "Python" resolves to skill
"python" via a synonym match with score 0.9; `find_matching_jobs` yields
exactly one JobMatch for data_scientist with match_score
0.9/1.6 = 9/16 = 0.5625 and missing_skills = ["SQL"]; the job is included
at `min_match_score = 0.5` and excluded at `0.6`. -/
theorem example_python_data_scientist :
    match_user_skills c2Matcher ["Python"] = [c2Match] ∧
    (9/10 : ℚ) / (16/10) = 9/16 ∧ (9/16 : ℚ) = 0.5625 ∧
    find_matching_jobs c2Matcher [c2Match] (1/2) = some [c2JobMatch] ∧
    find_matching_jobs c2Matcher [c2Match] (3/5) = some [] := by
  have hsp : ¬("sql" : String) = "python" := by decide
  have hps : ¬("python" : String) = "sql" := by decide
  have hsim : calculate_skill_similarity c2Matcher.ontology "sql" "python" = 0 := by
    show calculate_skill_similarity c2Ont "sql" "python" = 0
    norm_num [calculate_skill_similarity, c2Ont, add_skill, add_job, pyDictSet,
      pyLookup, pySet, pythonSkill, sqlSkill, List.dedup, hsp, hps]
  have hlook : pyLookup c2Matcher.ontology.skill_relationships "sql" = some [] := rfl
  have htr : find_transferable_skill c2Matcher "sql" ["python"] = none := by
    norm_num [find_transferable_skill, hlook, hsim, List.find?]
  have hjobs : pyValues c2Matcher.ontology.jobs = [dataScientistJob] := rfl
  have hids : pySet (List.map (fun x => x.matched_skill.id) [c2Match]) = ["python"] := rfl
  have hstep : processJob c2Matcher [c2Match] ["python"] (1/2) [] dataScientistJob =
      some [c2JobMatch] := by
    simp only [processJob, reqStep, List.foldlM, dataScientistJob, htr]
    norm_num [c2Matcher, c2Ont, mkSkillMatcher, add_skill, add_job, pyDictSet, pyLookup,
      c2JobMatch, c2Match, pythonSkill, sqlSkill, dataScientistJob, List.find?, hsp, hps,
      List.cons_ne_nil]
  have hstep2 : processJob c2Matcher [c2Match] ["python"] (3/5) [] dataScientistJob =
      some [] := by
    simp only [processJob, reqStep, List.foldlM, dataScientistJob, htr]
    norm_num [c2Matcher, c2Ont, mkSkillMatcher, add_skill, add_job, pyDictSet, pyLookup,
      c2Match, pythonSkill, sqlSkill, dataScientistJob, List.find?, hsp, hps,
      List.cons_ne_nil]
  refine ⟨rfl, by norm_num, by norm_num, ?_, ?_⟩
  · simp only [find_matching_jobs]
    rw [hjobs, hids]
    simp only [List.foldlM]
    rw [hstep]
    simp [pySortDescBy, insertDescBy]
  · simp only [find_matching_jobs]
    rw [hjobs, hids]
    simp only [List.foldlM]
    rw [hstep2]
    simp [pySortDescBy, insertDescBy]

/-! ### Escaped exceptions in `find_matching_jobs` -/

theorem foldlM_option_none {α β : Type} (l : List α) (f : β → α → Option β) (x : α)
    (hx : x ∈ l) (hf : ∀ st, f st x = none) :
    ∀ b : β, l.foldlM f b = none := by
  induction l with
  | nil => simp at hx
  | cons y ys ih =>
    intro b
    rcases List.mem_cons.mp hx with rfl | hmem
    · simp [List.foldlM, hf]
    · cases hfy : f b y with
      | none => simp [List.foldlM, hfy]
      | some b' => simp [List.foldlM, hfy, ih hmem]

theorem reqStep_dangling (m : SkillMatcher) (skill_matches : List SkillMatch)
    (user_skill_ids : List String) (req : SkillRequirement)
    (hnot : req.skill_id ∉ user_skill_ids)
    (hdangling : pyLookup m.ontology.skills req.skill_id = none) :
    ∀ st, reqStep m skill_matches user_skill_ids st req = none := by
  intro st
  obtain ⟨a, b, c, d⟩ := st
  simp only [reqStep, hdangling]
  rw [if_neg hnot]
  cases find_transferable_skill m req.skill_id user_skill_ids <;> simp

theorem processJob_dangling (m : SkillMatcher) (skill_matches : List SkillMatch)
    (user_skill_ids : List String) (min_match_score : ℚ) (job : Job)
    (req : SkillRequirement) (hreq : req ∈ job.required_skills)
    (hnot : req.skill_id ∉ user_skill_ids)
    (hdangling : pyLookup m.ontology.skills req.skill_id = none) :
    ∀ jms, processJob m skill_matches user_skill_ids min_match_score jms job = none := by
  intro jms
  have hne : job.required_skills ≠ [] := by
    intro h
    rw [h] at hreq
    simp at hreq
  simp only [processJob]
  rw [if_neg hne,
    foldlM_option_none job.required_skills (reqStep m skill_matches user_skill_ids) req hreq
      (reqStep_dangling m skill_matches user_skill_ids req hnot hdangling) _]

/-- C1 (amended): for a job requirement whose skill id is not registered,
`identify_skill_gaps` tolerates it — it returns normally and records the
display name `"Unknown"` (not the raw id) for such a requirement — while
`find_matching_jobs` raises `KeyError` (an escaped exception, `none` in the
model) whenever the dangling required id is not among the matched skill
ids. -/
theorem dangling_requirement_amended (ont : SkillOntology) (user_skills : List UserSkill)
    (job_id : String) (job : Job) (req : SkillRequirement)
    (skill_matches : List SkillMatch) (min_match_score : ℚ)
    (hjob : pyLookup ont.jobs job_id = some job)
    (hreq : req ∈ job.required_skills)
    (hdangling : pyLookup ont.skills req.skill_id = none) :
    (userSkillDict user_skills req.skill_id = none →
      ∃ g ∈ identify_skill_gaps ont user_skills job_id,
        g.skill_id = req.skill_id ∧ g.skill_name = "Unknown" ∧ g.gap_score = 1) ∧
    (req.skill_id ∉ pySet (skill_matches.map (fun x => x.matched_skill.id)) →
      find_matching_jobs (mkSkillMatcher ont) skill_matches min_match_score = none) := by
  constructor
  · intro husd
    have hres : identify_skill_gaps ont user_skills job_id =
        pySortDescBy (fun g => g.importance * g.gap_score)
          (job.required_skills.filterMap (gap_for_requirement ont user_skills)) := by
      simp [identify_skill_gaps, hjob]
    have hg : gap_for_requirement ont user_skills req = some
        { skill_id := req.skill_id, skill_name := "Unknown",
          current_level := none, required_level := req.required_level,
          importance := req.importance, gap_score := 1 } := by
      simp only [gap_for_requirement, hdangling, husd]
    rw [hres]
    exact ⟨_, (mem_pySortDescBy _ _ _).mpr (List.mem_filterMap.mpr ⟨req, hreq, hg⟩),
      rfl, rfl, rfl⟩
  · intro hnot
    have hjobmem : job ∈ pyValues (mkSkillMatcher ont).ontology.jobs :=
      pyLookup_mem_pyValues ont.jobs job_id job hjob
    simp only [find_matching_jobs]
    rw [foldlM_option_none (pyValues (mkSkillMatcher ont).ontology.jobs)
      (processJob (mkSkillMatcher ont) skill_matches
        (pySet (skill_matches.map (fun x => x.matched_skill.id))) min_match_score)
      job hjobmem
      (processJob_dangling (mkSkillMatcher ont) skill_matches _ min_match_score job req
        hreq hnot hdangling) []]

theorem dangling_requirement_amended_witness :
    (∃ g ∈ identify_skill_gaps c1Ont [] "j",
      g.skill_id = "ghost" ∧ g.skill_name = "Unknown" ∧ g.gap_score = 1) ∧
    find_matching_jobs (mkSkillMatcher c1Ont) [] (1/2) = none := by
  have h := dangling_requirement_amended c1Ont [] "j" ghostJob ghostReq [] (1/2) rfl
    (List.mem_singleton.mpr rfl) rfl
  exact ⟨h.1 rfl, h.2 (by simp [pySet])⟩

/-- C1 (counterexample): with a job requiring the unregistered skill id
"ghost" and no matched skills, `find_matching_jobs` raises `KeyError`
(`none` in the model) rather than returning normally, and the gap emitted by
`identify_skill_gaps` records the display name `"Unknown"`, not the raw id
"ghost" — both against the claim. -/
theorem dangling_requirement_counterexample :
    find_matching_jobs (mkSkillMatcher c1Ont) [] (1/2) = none ∧
    identify_skill_gaps c1Ont [] "j" = [c1Gap] ∧
    c1Gap.skill_name = "Unknown" ∧ ("Unknown" : String) ≠ "ghost" :=
  ⟨rfl, rfl, rfl, by decide⟩

/-! ### Sequencing facts -/

theorem wellSequenced_append_single (l : List LearningMilestone) (mile : LearningMilestone)
    (hl : WellSequenced l)
    (hp : ∀ p ∈ mile.prerequisites,
      ∃ j, ∃ hj : j < l.length, (l.get ⟨j, hj⟩).skill_name = p) :
    WellSequenced (l ++ [mile]) := by
  intro i hi p hpmem
  by_cases hlt : i < l.length
  · have hgeti : (l ++ [mile]).get ⟨i, hi⟩ = l.get ⟨i, hlt⟩ := by
      rw [List.get_eq_getElem, List.get_eq_getElem, List.getElem_append_left]
    rw [hgeti] at hpmem
    obtain ⟨j, hj, hji, hname⟩ := hl i hlt p hpmem
    refine ⟨j, ?_, hji, ?_⟩
    · simp
      omega
    · rw [List.get_eq_getElem, List.getElem_append_left hj]
      rw [List.get_eq_getElem] at hname
      exact hname
  · have hieq : i = l.length := by
      have h2 : i < l.length + 1 := by simpa using hi
      omega
    have hgeti : (l ++ [mile]).get ⟨i, hi⟩ = mile := by
      subst hieq
      simp [List.get_eq_getElem, List.getElem_append_right (le_refl l.length)]
    rw [hgeti] at hpmem
    obtain ⟨j, hj, hname⟩ := hp p hpmem
    refine ⟨j, ?_, by omega, ?_⟩
    · simp
      omega
    · rw [List.get_eq_getElem, List.getElem_append_left hj]
      rw [List.get_eq_getElem] at hname
      exact hname

theorem seqPass_invariant (milestones : List LearningMilestone) :
    ∀ (snapshot optimized : List LearningMilestone) (completed : List String)
      (remaining : List LearningMilestone) (added : Bool)
      (opt2 : List LearningMilestone) (comp2 : List String)
      (rem2 : List LearningMilestone) (added2 : Bool),
    seqPass snapshot optimized completed remaining added = (opt2, comp2, rem2, added2) →
    WellSequenced optimized →
    (∀ s ∈ completed, ∃ mile ∈ optimized, mile.skill_name = s) →
    List.Sublist remaining milestones →
    WellSequenced opt2 ∧ (∀ s ∈ comp2, ∃ mile ∈ opt2, mile.skill_name = s) ∧
      List.Sublist rem2 milestones := by
  intro snapshot
  induction snapshot with
  | nil =>
    intro optimized completed remaining added opt2 comp2 rem2 added2 heq hws hcomp hsub
    simp only [seqPass, Prod.mk.injEq] at heq
    obtain ⟨h1, h2, h3, _⟩ := heq
    subst h1
    subst h2
    subst h3
    exact ⟨hws, hcomp, hsub⟩
  | cons mile rest ih =>
    intro optimized completed remaining added opt2 comp2 rem2 added2 heq hws hcomp hsub
    by_cases hcond : mile.prerequisites.all (fun p => completed.contains p) = true
    · simp only [seqPass] at heq
      rw [if_pos hcond] at heq
      have hws' : WellSequenced (optimized ++ [mile]) := by
        apply wellSequenced_append_single _ _ hws
        intro p hp
        have hpc : p ∈ completed := by
          have hall := List.all_eq_true.mp hcond p hp
          simpa using hall
        obtain ⟨mile', hmem, hname⟩ := hcomp p hpc
        obtain ⟨n, hget⟩ := List.mem_iff_get.mp hmem
        exact ⟨n.1, n.2, by rw [hget]; exact hname⟩
      have hcomp' : ∀ s ∈ completed ++ [mile.skill_name],
          ∃ m' ∈ optimized ++ [mile], m'.skill_name = s := by
        intro s hs
        rcases List.mem_append.mp hs with hs | hs
        · obtain ⟨m', hm, hn⟩ := hcomp s hs
          exact ⟨m', List.mem_append_left _ hm, hn⟩
        · rw [List.mem_singleton] at hs
          exact ⟨mile, List.mem_append_right _ (List.mem_singleton.mpr rfl), hs.symm⟩
      have hsub' : List.Sublist (remaining.erase mile) milestones :=
        (List.erase_sublist mile remaining).trans hsub
      exact ih _ _ _ _ _ _ _ _ heq hws' hcomp' hsub'
    · simp only [seqPass] at heq
      rw [if_neg hcond] at heq
      exact ih _ _ _ _ _ _ _ _ heq hws hcomp hsub

theorem seqLoop_spec (milestones : List LearningMilestone) :
    ∀ (fuel : Nat) (completed : List String)
      (remaining optimized : List LearningMilestone),
    WellSequenced optimized →
    (∀ s ∈ completed, ∃ mile ∈ optimized, mile.skill_name = s) →
    List.Sublist remaining milestones →
    ∃ good tail, seqLoop fuel completed remaining optimized = good ++ tail ∧
      WellSequenced good ∧ List.Sublist tail milestones := by
  intro fuel
  induction fuel with
  | zero =>
    intro completed remaining optimized hws _ hsub
    cases remaining with
    | nil => exact ⟨optimized, [], by simp [seqLoop], hws, List.nil_sublist _⟩
    | cons r rs => exact ⟨optimized, r :: rs, by simp [seqLoop], hws, hsub⟩
  | succ fuel ih =>
    intro completed remaining optimized hws hcomp hsub
    cases remaining with
    | nil => exact ⟨optimized, [], by simp [seqLoop], hws, List.nil_sublist _⟩
    | cons r rs =>
      rcases hp : seqPass (r :: rs) optimized completed (r :: rs) false with
        ⟨opt2, comp2, rem2, added⟩
      obtain ⟨hws', hcomp', hsub'⟩ :=
        seqPass_invariant milestones (r :: rs) optimized completed (r :: rs) false
          opt2 comp2 rem2 added hp hws hcomp hsub
      cases added with
      | true =>
        obtain ⟨good, tail, heq, hg, ht⟩ := ih comp2 rem2 opt2 hws' hcomp' hsub'
        refine ⟨good, tail, ?_, hg, ht⟩
        rw [← heq]
        simp only [seqLoop]
        rw [hp]
        simp
      | false =>
        refine ⟨opt2, rem2, ?_, hws', hsub'⟩
        simp only [seqLoop]
        rw [hp]
        simp

/-- C8: every sequence produced by `_optimize_learning_sequence` splits as
`good ++ tail`, where in `good` (the milestones emitted normally) every
prerequisite of every milestone — in particular every prerequisite that
appears as a milestone at all — is the skill name of a strictly earlier
milestone, and `tail` (empty unless the fixed-point fallback fired) is the
unresolved remainder appended in its original relative order (a sublist of
the input). -/
theorem optimize_learning_sequence_spec (milestones : List LearningMilestone) :
    ∃ good tail,
      optimize_learning_sequence milestones = good ++ tail ∧
      WellSequenced good ∧ List.Sublist tail milestones := by
  have hws : WellSequenced (milestones.filter (fun mile => mile.prerequisites = [])) := by
    intro i hi p hp
    have hmem : (milestones.filter (fun mile => mile.prerequisites = [])).get ⟨i, hi⟩ ∈
        milestones.filter (fun mile => mile.prerequisites = []) :=
      List.get_mem _ i hi
    have hnil := List.of_mem_filter hmem
    simp only [decide_eq_true_eq] at hnil
    rw [hnil] at hp
    simp at hp
  have hcomp : ∀ s ∈ (milestones.filter (fun mile => mile.prerequisites = [])).map
      (·.skill_name),
      ∃ mile ∈ milestones.filter (fun mile => mile.prerequisites = []),
        mile.skill_name = s := by
    intro s hs
    rcases List.mem_map.mp hs with ⟨mile, hm, hn⟩
    exact ⟨mile, hm, hn⟩
  have hsub : List.Sublist (milestones.filter (fun mile => ¬mile.prerequisites = []))
      milestones := List.filter_sublist _
  obtain ⟨good, tail, heq, hg, ht⟩ := seqLoop_spec milestones
    ((milestones.filter (fun mile => ¬mile.prerequisites = [])).length + 1)
    ((milestones.filter (fun mile => mile.prerequisites = [])).map (·.skill_name))
    (milestones.filter (fun mile => ¬mile.prerequisites = []))
    (milestones.filter (fun mile => mile.prerequisites = []))
    hws hcomp hsub
  exact ⟨good, tail, by simpa [optimize_learning_sequence] using heq, hg, ht⟩
